import Mathlib

/-!
Verification of the CppLiveTuner specification against `include/LiveTuner.h`.

The development shallowly embeds the components the specification talks about:
the retrying file reader, the watcher configuration and its overflow handling,
the `FileWatcher` wait/notify flags, the key-value and JSON content parsers and
the `Params` orchestrator.  Filesystem and clock interactions are passed in
explicitly as environment values; machine floating-point quantities that only
ever hold small exact decimals are embedded as rationals.
-/

set_option linter.unusedVariables false

namespace LiveTuner

/-- Error taxonomy of the library (`enum class ErrorType` in LiveTuner.h). -/
inductive ErrorType
  | None
  | FileNotFound
  | FileAccessDenied
  | FileEmpty
  | FileReadError
  | ParseError
  | InvalidFormat
  | Timeout
  | WatcherError
  | Unknown
deriving DecidableEq, Repr

/-- Error information (`struct ErrorInfo`).  The `timestamp` field is taken from
the system wall clock in the source and carries no information any claim uses,
so it is omitted; the dynamic parts of messages (`ec.message()`, exception
text) are likewise omitted, keeping the fixed message prefixes. -/
structure ErrorInfo where
  type : ErrorType := ErrorType.None
  message : String := ""
  file_path : String := ""
deriving DecidableEq, Repr

/-- `ErrorInfo::operator bool`: true when an error is present. -/
def ErrorInfo.isError (e : ErrorInfo) : Bool :=
  e.type != ErrorType.None

/-- Supported file formats (`enum class FileFormat`). -/
inductive FileFormat
  | Auto
  | Plain
  | KeyValue
  | Json
  | Yaml
deriving DecidableEq, Repr

/-- Watcher configuration (`struct FileWatcherConfig`).  The
`on_buffer_overflow` `std::function` member is embedded by whether a callback
is registered. -/
structure FileWatcherConfig where
  buffer_size : Nat := 65536
  auto_grow_buffer : Bool := true
  max_buffer_size : Nat := 1048576
  has_overflow_callback : Bool := false
deriving DecidableEq, Repr

/-- `FileWatcherConfig::min_buffer_size` (static constexpr). -/
def FileWatcherConfig.min_buffer_size : Nat := 4096

/-- `FileWatcherConfig::validate`: clamp `buffer_size` below by
`min_buffer_size`, then above by `max_buffer_size`, in that order. -/
def FileWatcherConfig.validate (c : FileWatcherConfig) : FileWatcherConfig :=
  let c1 :=
    if c.buffer_size < FileWatcherConfig.min_buffer_size then
      { c with buffer_size := FileWatcherConfig.min_buffer_size }
    else c
  if c1.buffer_size > c1.max_buffer_size then
    { c1 with buffer_size := c1.max_buffer_size }
  else c1

/-- The buffer-overflow branch of the directory-change watcher worker
(`FileWatcher::start_native`, the `ERROR_NOTIFY_ENUM_DIR` case).  Given the
configuration and the current buffer size, it returns the buffer size after the
branch together with the list of `on_buffer_overflow` invocations
`(old_size, new_size)` the branch performs.  The `buffer.resize` allocation
failure path (`catch (...)`) is not modeled. -/
def handle_buffer_overflow (cfg : FileWatcherConfig) (current_size : Nat) :
    Nat × List (Nat × Nat) :=
  if cfg.auto_grow_buffer then
    let new_size := min (current_size * 2) cfg.max_buffer_size
    if new_size > current_size then
      (new_size, if cfg.has_overflow_callback then [(current_size, new_size)] else [])
    else
      (current_size, [])
  else
    (current_size, [])

/-- The flag state shared between `FileWatcher::wait_for_change`,
`FileWatcher::notify_change` and `FileWatcher::stop`: the atomic
`change_detected_` flag and the `running_` flag. -/
structure WatcherFlags where
  change_detected : Bool
  running : Bool
deriving DecidableEq, Repr

/-- The flag state right after `FileWatcher::stop` runs on a running watcher:
`running_.store(false)`, then `change_detected_.store(true)` under the lock
(done precisely to wake any blocked waiter), then `cv_.notify_all()`. -/
def FileWatcher.stop_flags : WatcherFlags :=
  { change_detected := true, running := false }

/-- `FileWatcher::wait_for_change(timeout)`.  `entry` is the flag state at
entry; `final` is the flag state at the moment `cv_.wait_for` returns: after a
notification the wait predicate `change_detected_ || !running_` holds at
`final`, after a timeout it need not.  The value `result` below is exactly the
boolean `cv_.wait_for` returns (the predicate evaluated at `final`).  Returns
the boolean result together with the flag state after any consumption of the
change flag. -/
def FileWatcher.wait_for_change (entry final : WatcherFlags) : Bool × WatcherFlags :=
  if entry.change_detected then
    (true, { entry with change_detected := false })
  else
    let result := final.change_detected || !final.running
    if result && final.change_detected then
      (true, { final with change_detected := false })
    else
      (false, final)

/-- One attempt's view of the filesystem inside `read_file_with_retry`:
whether `std::filesystem::exists` returns true, whether the two `error_code`
checks fire, the reported file size, whether the `ifstream` opens, whether the
read throws, whether the stream ends good-or-eof, and the bytes obtained. -/
structure FsView where
  file_exists : Bool
  exists_error : Bool
  size_error : Bool
  file_size : Nat
  open_ok : Bool
  read_exception : Bool
  stream_ok : Bool
  content : String
deriving DecidableEq, Repr

/-- The body of one iteration of the `read_file_with_retry` loop: the chain of
checks each attempt performs, in source order, producing either the content or
the `ErrorInfo` recorded into `last_error`. -/
def read_attempt (path : String) (v : FsView) : Except ErrorInfo String :=
  if !v.file_exists then
    .error { type := .FileNotFound, message := "File does not exist", file_path := path }
  else if v.exists_error then
    .error { type := .FileAccessDenied, message := "Cannot access file", file_path := path }
  else if v.size_error then
    .error { type := .FileReadError, message := "Cannot get file size", file_path := path }
  else if v.file_size = 0 then
    .error { type := .FileEmpty, message := "File is empty", file_path := path }
  else if !v.open_ok then
    .error { type := .FileAccessDenied, message := "Cannot open file for reading", file_path := path }
  else if v.read_exception then
    .error { type := .FileReadError, message := "Exception during file read", file_path := path }
  else if v.stream_ok then
    if v.content ≠ "" then
      .ok v.content
    else
      .error { type := .FileEmpty, message := "File content is empty after read", file_path := path }
  else
    .error { type := .FileReadError, message := "File stream in bad state after read", file_path := path }

/-- Whether an attempt failed. -/
def readFailed (r : Except ErrorInfo String) : Bool :=
  match r with
  | .ok _ => false
  | .error _ => true

/-- The error of a failed attempt (defaulting on success). -/
def readError (r : Except ErrorInfo String) : ErrorInfo :=
  match r with
  | .ok _ => {}
  | .error e => e

/-- An exact rational kept as an unreduced fraction with positive denominator.
This embeds the C++ `double` values of the library: every `double` the claims
exercise holds a small exact decimal (1.5, 2.5, ...), so exact fraction
arithmetic models them faithfully, and keeping fractions unreduced makes every
operation kernel-computable.  Value equality is `Frac.eqv`. -/
structure Frac where
  num : Int
  den : Int
deriving DecidableEq, Repr

/-- The fraction denoting an integer. -/
def Frac.ofInt (n : Int) : Frac := ⟨n, 1⟩

/-- Fraction multiplication. -/
def Frac.mul (a b : Frac) : Frac := ⟨a.num * b.num, a.den * b.den⟩

/-- Value equality of fractions (cross multiplication). -/
def Frac.eqv (a b : Frac) : Bool := a.num * b.den == b.num * a.den

/-- Value order on fractions with positive denominators (cross
multiplication). -/
def Frac.le (a b : Frac) : Bool := decide (a.num * b.den ≤ b.num * a.den)

/-- Powers of ten, as integers. -/
def pow10 : Nat → Int
  | 0 => 1
  | n + 1 => 10 * pow10 n

/-- `struct FileReadRetryConfig`.  `max_retries` is an `int` in the source; the
spec and the claims only exercise nonnegative values, embedded as `Nat`.
`retry_delay` is the millisecond count of the `std::chrono::milliseconds`
field; `backoff_multiplier` is a `double`, embedded as an exact fraction (the
values involved, such as 1.5, are exactly representable). -/
structure FileReadRetryConfig where
  max_retries : Nat := 3
  retry_delay : Int := 5
  backoff_multiplier : Frac := ⟨3, 2⟩
deriving DecidableEq, Repr

/-- `static_cast<int>` applied to a C++ `double` within `int` range:
truncation toward zero, which for a fraction with positive denominator is
truncating integer division. -/
def castTruncInt (x : Frac) : Int :=
  x.num.tdiv x.den

/-- The retry loop of `read_file_with_retry`, one iteration per `attempt`;
`fs attempt` is the filesystem state that attempt observes.  Iterations after
the first sleep for the current `delay` and then multiply it (as integer
milliseconds, truncating) by the backoff multiplier.  Returns the content
result, the `error_out` value, and the total milliseconds passed to
`sleep_for` over all iterations. -/
def read_retry_go (path : String) (fs : Nat → FsView) (mult : Frac) :
    Nat → Nat → Int → ErrorInfo → Int → Option String × ErrorInfo × Int
  | 0, _, _, last_error, slept => (none, last_error, slept)
  | fuel + 1, attempt, delay, last_error, slept =>
    let slept1 := if 0 < attempt then slept + delay else slept
    let delay1 := if 0 < attempt then castTruncInt (Frac.mul (Frac.ofInt delay) mult) else delay
    match read_attempt path (fs attempt) with
    | .ok content => (some content, {}, slept1)
    | .error e => read_retry_go path fs mult fuel (attempt + 1) delay1 e slept1

/-- `read_file_with_retry(path, config, &error_out)`: runs attempts
`0 .. config.max_retries`; the first successful attempt returns its content and
clears `error_out`; exhaustion returns no content and reports the most recent
failure. -/
def read_file_with_retry (path : String) (fs : Nat → FsView)
    (config : FileReadRetryConfig) : Option String × ErrorInfo × Int :=
  read_retry_go path fs config.backoff_multiplier (config.max_retries + 1) 0
    config.retry_delay {} 0

/-- The double-quote character. -/
def doubleQuoteChar : Char := Char.ofNat 34

/-- The single-quote character. -/
def singleQuoteChar : Char := Char.ofNat 39

/-- The opening curly brace character. -/
def braceOpenChar : Char := Char.ofNat 123

/-- The closing curly brace character. -/
def braceCloseChar : Char := Char.ofNat 125

/-- `result[key] = value` on a `std::unordered_map<std::string, V>`, embedded
over an association list with distinct keys: replace in place or append. -/
def insertAssoc {β : Type} (m : List (String × β)) (k : String) (v : β) :
    List (String × β) :=
  match m with
  | [] => [(k, v)]
  | (a, b) :: t => if a = k then (k, v) :: t else (a, b) :: insertAssoc t k v

/-- `map.find(key)` on the same embedding. -/
def lookupAssoc {β : Type} (m : List (String × β)) (k : String) : Option β :=
  match m with
  | [] => none
  | (a, b) :: t => if a = k then some b else lookupAssoc t k

/-- The key list of an association list. -/
def assocKeys {β : Type} (m : List (String × β)) : List String :=
  m.map Prod.fst

/-- The whitespace set of `internal::trim`. -/
def isTrimWs (c : Char) : Bool :=
  c = ' ' || c = '\t' || c = '\r' || c = '\n'

/-- `internal::trim`: strip leading and trailing blanks, tabs, carriage
returns and newlines. -/
def trim (s : String) : String :=
  String.mk (((s.toList.dropWhile isTrimWs).reverse.dropWhile isTrimWs).reverse)

/-- Splitting a character list at newlines, each newline consumed
(the `std::getline` loop). -/
def splitLinesGo (cur : List Char) : List Char → List (List Char)
  | [] => [cur.reverse]
  | c :: rest =>
    if c = '\n' then cur.reverse :: splitLinesGo [] rest
    else splitLinesGo (c :: cur) rest

/-- The successive lines `std::getline` yields from an `istringstream` over
`s`: segments split at each newline, the newline consumed; a trailing newline
produces no final empty segment, and an empty input yields no lines. -/
def getLines (s : String) : List String :=
  if s = "" then []
  else
    let segs := splitLinesGo [] s.toList
    let segs1 := if s.toList.getLast? = some '\n' then segs.dropLast else segs
    segs1.map String.mk

/-- The quote stripping applied to parsed values (both by
`SimpleKeyValueParser::parse` and `parse_value<std::string>`): a value of
length at least two that starts and ends with the same double or single quote
loses both. -/
def stripQuotes (v : String) : String :=
  match h : v.toList with
  | [] => v
  | f :: rest =>
    if 2 ≤ (f :: rest).length ∧
        ((f = doubleQuoteChar ∧ (f :: rest).getLast? = some doubleQuoteChar) ∨
         (f = singleQuoteChar ∧ (f :: rest).getLast? = some singleQuoteChar)) then
      String.mk rest.dropLast
    else v

/-- Processing of one line inside `SimpleKeyValueParser::parse`: trim; skip
empty lines, comments, YAML document markers and INI section headers; locate
the separator (a colon in YAML style, otherwise an equals sign and then a
colon); trim key and value, strip quotes from the value, and store the pair
when the key is nonempty. -/
def parseKVLine (yaml_style : Bool) (acc : List (String × String)) (line : String) :
    List (String × String) :=
  let t := trim line
  match t.toList with
  | [] => acc
  | c :: cs =>
    if c = '#' ∨ c = ';' then acc
    else if t = "---" ∨ t = "..." then acc
    else if c = '[' ∧ (c :: cs).getLast? = some ']' then acc
    else
      let sep :=
        if yaml_style then (c :: cs).findIdx? (fun d => d = ':')
        else
          match (c :: cs).findIdx? (fun d => d = '=') with
          | some i => some i
          | none => (c :: cs).findIdx? (fun d => d = ':')
      match sep with
      | none => acc
      | some i =>
        let key := trim (String.mk ((c :: cs).take i))
        let value := stripQuotes (trim (String.mk ((c :: cs).drop (i + 1))))
        if key ≠ "" then insertAssoc acc key value else acc

/-- `SimpleKeyValueParser::parse`: fold the lines into the map; the boolean
result is `!result.empty()`. -/
def SimpleKeyValueParser.parse (content : String) (yaml_style : Bool) :
    List (String × String) × Bool :=
  let m := (getLines content).foldl (parseKVLine yaml_style) []
  (m, !m.isEmpty)

/-- picojson values (vendored picojson).  Numbers are produced by `strtod` in
the source; the embedding keeps the exact decimal value as a fraction, since
the IEEE rounding applied by `strtod` is not observable through any claim. -/
inductive PicoValue
  | vnull
  | vbool (b : Bool)
  | vnum (q : Frac)
  | vstr (s : String)
  | varr (xs : List PicoValue)
  | vobj (entries : List (String × PicoValue))
deriving Repr

/-- `picojson::DEFAULT_MAX_DEPTHS`. -/
def picoDefaultMaxDepths : Nat := 100

/-- picojson whitespace (`input::skip_ws`). -/
def picoIsWs (c : Char) : Bool :=
  c = ' ' || c = '\t' || c = '\n' || c = '\r'

/-- `input::skip_ws`. -/
def picoSkipWs (s : List Char) : List Char :=
  s.dropWhile picoIsWs

/-- `input::expect`: skip whitespace, then consume `c` or fail (the source
restores the read position on failure; the caller then re-reads from the
whitespace-skipped position, which the option result models). -/
def picoExpect (c : Char) (s : List Char) : Option (List Char) :=
  match picoSkipWs s with
  | d :: rest => if d = c then some rest else none
  | [] => none

/-- `input::match`: consume the exact pattern or fail. -/
def picoMatchPat (pat : List Char) (s : List Char) : Option (List Char) :=
  match pat, s with
  | [], s => some s
  | p :: ps, d :: rest => if d = p then picoMatchPat ps rest else none
  | _ :: _, [] => none

/-- One hexadecimal digit of `_parse_quadhex`. -/
def picoHexDigit (c : Char) : Option Nat :=
  if '0' ≤ c ∧ c ≤ '9' then some (c.toNat - 48)
  else if 'A' ≤ c ∧ c ≤ 'F' then some (c.toNat - 65 + 10)
  else if 'a' ≤ c ∧ c ≤ 'f' then some (c.toNat - 97 + 10)
  else none

/-- `_parse_quadhex`: four hexadecimal digits. -/
def picoParseQuadhex (s : List Char) : Option (Nat × List Char) :=
  match s with
  | a :: b :: c :: d :: rest =>
    match picoHexDigit a, picoHexDigit b, picoHexDigit c, picoHexDigit d with
    | some x, some y, some z, some w =>
      some (((x * 16 + y) * 16 + z) * 16 + w, rest)
    | _, _, _, _ => none
  | _ => none

/-- `_parse_codepoint`: a `\u` escape, with surrogate-pair handling.  The
source emits the UTF-8 bytes of the code point; the embedding emits the code
point itself, which denotes the same text. -/
def picoParseCodepoint (s : List Char) : Option (Char × List Char) :=
  match picoParseQuadhex s with
  | none => none
  | some (uni, rest) =>
    if 0xd800 ≤ uni ∧ uni ≤ 0xdfff then
      if 0xdc00 ≤ uni then none
      else
        match rest with
        | c1 :: c2 :: rest2 =>
          if c1 = '\\' ∧ c2 = 'u' then
            match picoParseQuadhex rest2 with
            | some (second, rest3) =>
              if 0xdc00 ≤ second ∧ second ≤ 0xdfff then
                some (Char.ofNat
                  ((((uni - 0xd800) <<< 10) ||| ((second - 0xdc00) &&& 0x3ff)) + 0x10000),
                  rest3)
              else none
            | none => none
          else none
        | _ => none
    else some (Char.ofNat uni, rest)

/-- `_parse_string` (after the opening quote has been consumed), accumulating
into `acc`.  Control characters, a dangling backslash and unknown escapes
fail; the fuel argument only bounds recursion and exceeds the input length at
every call site. -/
def picoParseStringGo : Nat → List Char → List Char → Option (String × List Char)
  | 0, _, _ => none
  | _, _, [] => none
  | fuel + 1, acc, c :: rest =>
    if c.toNat < 32 then none
    else if c = doubleQuoteChar then some (String.mk acc.reverse, rest)
    else if c = '\\' then
      match rest with
      | [] => none
      | e :: rest2 =>
        if e = doubleQuoteChar then picoParseStringGo fuel (doubleQuoteChar :: acc) rest2
        else if e = '\\' then picoParseStringGo fuel ('\\' :: acc) rest2
        else if e = '/' then picoParseStringGo fuel ('/' :: acc) rest2
        else if e = 'b' then picoParseStringGo fuel (Char.ofNat 8 :: acc) rest2
        else if e = 'f' then picoParseStringGo fuel (Char.ofNat 12 :: acc) rest2
        else if e = 'n' then picoParseStringGo fuel ('\n' :: acc) rest2
        else if e = 'r' then picoParseStringGo fuel (Char.ofNat 13 :: acc) rest2
        else if e = 't' then picoParseStringGo fuel ('\t' :: acc) rest2
        else if e = 'u' then
          match picoParseCodepoint rest2 with
          | some (ch, rest3) => picoParseStringGo fuel (ch :: acc) rest3
          | none => none
        else none
    else picoParseStringGo fuel (c :: acc) rest

/-- A decimal digit. -/
def isDigitChar (c : Char) : Bool :=
  '0' ≤ c && c ≤ '9'

/-- The characters `_parse_number` collects. -/
def picoNumChar (c : Char) : Bool :=
  isDigitChar c || c = '+' || c = '-' || c = 'e' || c = 'E' || c = '.'

/-- The value of a digit string. -/
def digitsToNat (ds : List Char) : Nat :=
  ds.foldl (fun acc c => acc * 10 + (c.toNat - 48)) 0

/-- `strtod` on the token `_parse_number` collected, required by picojson to
consume the whole token: an optional sign, a mantissa with at least one digit
and an optional dot, and an optional exponent with at least one digit.  The
result is the exact decimal value (hex, infinity and NaN forms cannot occur in
a collected token); the binary rounding `strtod` applies afterwards is not
observable through any claim. -/
def strtodFull (s : List Char) : Option Frac :=
  let (neg, s1) :=
    match s with
    | c :: t => if c = '-' then (true, t) else if c = '+' then (false, t) else (false, s)
    | [] => (false, s)
  let ip := s1.takeWhile isDigitChar
  let s2 := s1.dropWhile isDigitChar
  let (fp, s3) :=
    match s2 with
    | c :: t =>
      if c = '.' then (t.takeWhile isDigitChar, t.dropWhile isDigitChar)
      else ([], s2)
    | [] => ([], s2)
  if ip.length + fp.length = 0 then none
  else
    let mnum : Int := (digitsToNat ip : Int) * pow10 fp.length + (digitsToNat fp : Int)
    let mant : Frac := ⟨(if neg then -1 else 1) * mnum, pow10 fp.length⟩
    match s3 with
    | [] => some mant
    | c :: t =>
      if c = 'e' ∨ c = 'E' then
        let (eneg, t1) :=
          match t with
          | d :: u => if d = '-' then (true, u) else if d = '+' then (false, u) else (false, t)
          | [] => (false, t)
        let ed := t1.takeWhile isDigitChar
        let t2 := t1.dropWhile isDigitChar
        if ed.length = 0 ∨ t2 ≠ [] then none
        else
          some (if eneg then ⟨mant.num, mant.den * pow10 (digitsToNat ed)⟩
            else ⟨mant.num * pow10 (digitsToNat ed), mant.den⟩)
      else none

/-- `o[key]` insertion while parsing an object: a later duplicate key
overwrites the earlier value (`std::map::operator[]`). -/
def picoInsertObj (m : List (String × PicoValue)) (k : String) (v : PicoValue) :
    List (String × PicoValue) :=
  match m with
  | [] => [(k, v)]
  | (a, b) :: t => if a = k then (k, v) :: t else (a, b) :: picoInsertObj t k v

mutual

/-- picojson `_parse`: dispatch on the first non-whitespace character.
`depths` is the remaining nesting budget (`DEFAULT_MAX_DEPTHS` at the top);
`fuel` only bounds recursion and exceeds what any input can consume. -/
def picoParseVal : Nat → Nat → List Char → Option (PicoValue × List Char)
  | _, 0, _ => none
  | depths, fuel + 1, s =>
    match picoSkipWs s with
    | [] => none
    | c :: rest =>
      if c = 'n' then (picoMatchPat ['u', 'l', 'l'] rest).map (fun r => (.vnull, r))
      else if c = 'f' then (picoMatchPat ['a', 'l', 's', 'e'] rest).map (fun r => (.vbool false, r))
      else if c = 't' then (picoMatchPat ['r', 'u', 'e'] rest).map (fun r => (.vbool true, r))
      else if c = doubleQuoteChar then
        (picoParseStringGo (fuel + 1) [] rest).map (fun p => (.vstr p.1, p.2))
      else if c = '[' then
        if depths = 0 then none
        else
          match picoExpect ']' rest with
          | some r => some (.varr [], r)
          | none => picoParseArrItems (depths - 1) fuel [] rest
      else if c = braceOpenChar then
        if depths = 0 then none
        else
          match picoExpect braceCloseChar rest with
          | some r => some (.vobj [], r)
          | none => picoParseObjItems (depths - 1) fuel [] rest
      else if isDigitChar c || c = '-' then
        let num := (c :: rest).takeWhile picoNumChar
        let rem := (c :: rest).dropWhile picoNumChar
        if num = [] then none
        else
          match strtodFull num with
          | some q => some (.vnum q, rem)
          | none => none
      else none

/-- The item loop of `_parse_array`. -/
def picoParseArrItems : Nat → Nat → List PicoValue → List Char → Option (PicoValue × List Char)
  | _, 0, _, _ => none
  | depths, fuel + 1, acc, s =>
    match picoParseVal depths fuel s with
    | none => none
    | some (v, r) =>
      match picoExpect ',' r with
      | some r2 => picoParseArrItems depths fuel (v :: acc) r2
      | none =>
        match picoExpect ']' r with
        | some r2 => some (.varr (v :: acc).reverse, r2)
        | none => none

/-- The item loop of `_parse_object`. -/
def picoParseObjItems : Nat → Nat → List (String × PicoValue) → List Char →
    Option (PicoValue × List Char)
  | _, 0, _, _ => none
  | depths, fuel + 1, acc, s =>
    match picoExpect doubleQuoteChar s with
    | none => none
    | some r =>
      match picoParseStringGo (fuel + 1) [] r with
      | none => none
      | some (key, r2) =>
        match picoExpect ':' r2 with
        | none => none
        | some r3 =>
          match picoParseVal depths fuel r3 with
          | none => none
          | some (v, r4) =>
            let acc1 := picoInsertObj acc key v
            match picoExpect ',' r4 with
            | some r5 => picoParseObjItems depths fuel acc1 r5
            | none =>
              match picoExpect braceCloseChar r4 with
              | some r5 => some (.vobj acc1, r5)
              | none => none

end

/-- `picojson::parse(v, content)`: the parsed value when `_parse` succeeds (the
returned error string is then empty), `none` when it fails (the error string is
then nonempty).  Input after the first value is left unconsumed, as in the
source. -/
def picojson_parse (content : String) : Option PicoValue :=
  let cs := content.toList
  (picoParseVal picoDefaultMaxDepths (4 * cs.length + 4) cs).map Prod.fst

/-- Left-pad with zero digits. -/
def padLeftZeros (s : String) (n : Nat) : String :=
  String.mk (List.replicate (n - s.length) '0') ++ s

/-- `std::to_string` applied to the `double` holding the exact value `x`:
fixed-point formatting with six decimals (rounding to nearest, halves up).
Reachable only through non-string JSON number members, which no claim
exercises; the binary rounding of the intermediate `double` is abstracted
away. -/
def doubleToStringSix (x : Frac) : String :=
  let neg := decide (x.num < 0)
  let a : Int := |x.num| * 1000000
  let m : Nat := ((2 * a + x.den).fdiv (2 * x.den)).toNat
  let ipart := m / 1000000
  let fpart := m % 1000000
  (if neg then "-" else "") ++ toString ipart ++ "." ++ padLeftZeros (toString fpart) 6

/-- `PicojsonParser::parse`: fail when picojson fails or the result is not an
object; otherwise flatten the object's string, number, bool and null members
into the string map, skipping nested objects and arrays; the boolean result is
`!result.empty()`.  The source iterates a `std::map` in key order; the
embedding keeps insertion order, which denotes the same map since object keys
are distinct. -/
def PicojsonParser.parse (content : String) : List (String × String) × Bool :=
  match picojson_parse content with
  | some (.vobj entries) =>
    let m := entries.foldl (fun acc kv =>
      match kv.2 with
      | .vstr s => insertAssoc acc kv.1 s
      | .vnum q => insertAssoc acc kv.1 (doubleToStringSix q)
      | .vbool b => insertAssoc acc kv.1 (if b then "true" else "false")
      | .vnull => insertAssoc acc kv.1 ""
      | _ => acc) []
    (m, !m.isEmpty)
  | _ => ([], false)

/-- The template `Params::ensure_file_exists` writes when the watched file is
missing, by format (the `default` branch covers `KeyValue`, `Plain` and
`Auto`). -/
def ensure_file_template (format : FileFormat) : String :=
  match format with
  | .Json => "\x7b\n  // Live Tuner parameters\n  // Edit values here and save\n\x7d\n"
  | .Yaml => "# Live Tuner parameters\n# Edit values here and save\n---\n"
  | _ => "# Live Tuner parameters\n# Format: key = value\n\n"

/-- `internal::parse_value<T>` for an arithmetic `T`, embedded over exact
rationals: `istringstream` extraction of a decimal number where nothing may
remain afterwards (the source extracts, then checks that no further token
follows).  Inputs reaching this function come from the content parsers and are
already trimmed, so the stream's leading-whitespace skipping is not modeled;
IEEE rounding is abstracted to the exact decimal value. -/
def parse_value_num (s : String) : Option Frac :=
  strtodFull s.toList

/-- One binding (`Params::Binding<T>`): the bound variable's current value
(`*target`) and the declared default. -/
structure BindingState (α : Type) where
  target : α
  default_value : α
deriving DecidableEq, Repr

/-- The state of a `Params` orchestrator, parametrized by the bound value type
`α` (all claims instantiate a single binding type).  The `on_change_callback_`
and `file_watcher_` members are embedded by whether they are set; times are
integer milliseconds. -/
structure ParamsState (α : Type) where
  file_path : String := "params.json"
  format : FileFormat := FileFormat.KeyValue
  current_values : List (String × String) := []
  bindings : List (String × BindingState α) := []
  last_error : ErrorInfo := {}
  read_retry_config : FileReadRetryConfig := {}
  watcher_config : FileWatcherConfig := {}
  cache_last_modify_time : Int := 0
  cache_last_access : Int := 0
  cache_file_exists : Bool := false
  has_on_change_callback : Bool := false
  in_callback : Bool := false
deriving DecidableEq, Repr

/-- `Params::set_watcher_config`: store the configuration, then validate it in
place. -/
def Params.set_watcher_config {α : Type} (st : ParamsState α)
    (config : FileWatcherConfig) : ParamsState α :=
  { st with watcher_config := config.validate }

/-- `Params::bind(name, variable, default_value)`: store the binding (an
existing binding under the same name is replaced) and immediately overwrite
the bound variable with the default.  `var_before` is the value the variable
held before the call; the source discards it. -/
def Params.bind {α : Type} (st : ParamsState α) (name : String)
    (var_before : α) (default_value : α) : ParamsState α :=
  let b : BindingState α := ⟨default_value, default_value⟩
  { st with bindings := insertAssoc st.bindings name b }

/-- The format dispatch inside `Params::load_file`. -/
def parse_by_format (format : FileFormat) (content : String) :
    List (String × String) × Bool :=
  match format with
  | .Json => PicojsonParser.parse content
  | .Yaml => SimpleKeyValueParser.parse content true
  | _ => SimpleKeyValueParser.parse content false

/-- The parse-failure message of `Params::load_file`, by format. -/
def parseErrorMessage (format : FileFormat) : String :=
  match format with
  | .Json => "Failed to parse JSON format"
  | .Yaml => "Failed to parse YAML format"
  | _ => "Failed to parse key-value format"

/-- The binding-update loop of `Params::load_file`: a name present in the new
map is parsed via `parse_value<T>` (`parseVal` here), keeping the previous
value on a parse failure (only a warning is logged); a name absent from the
map resets the binding to its declared default. -/
def applyBindings {α : Type} (parseVal : String → Option α)
    (values : List (String × String)) (bindings : List (String × BindingState α)) :
    List (String × BindingState α) :=
  bindings.map (fun nb =>
    match lookupAssoc values nb.1 with
    | some v =>
      match parseVal v with
      | some x => (nb.1, { nb.2 with target := x })
      | none => nb
    | none => (nb.1, { nb.2 with target := nb.2.default_value }))

/-- `Params::load_file`.  `fs attempt` is the filesystem state each read
attempt observes.  Read with retry; parse by format, recording a `ParseError`
when the map comes back empty; compare the new map key-by-key against the
previous one and report no update when nothing differs and the sizes agree;
otherwise replace the stored map, update every binding and clear the error. -/
def Params.load_file {α : Type} (parseVal : String → Option α)
    (st : ParamsState α) (fs : Nat → FsView) : ParamsState α × Bool :=
  let r := read_file_with_retry st.file_path fs st.read_retry_config
  match r.1 with
  | none => ({ st with last_error := r.2.1 }, false)
  | some content =>
    let pr := parse_by_format st.format content
    let new_values := pr.1
    let parsed := pr.2
    if !parsed && new_values.isEmpty then
      ({ st with last_error :=
          { type := ErrorType.ParseError,
            message := parseErrorMessage st.format,
            file_path := st.file_path } }, false)
    else
      let any_changed :=
        new_values.any (fun kv => !(lookupAssoc st.current_values kv.1 == some kv.2))
      if !any_changed && (new_values.length == st.current_values.length) then
        (st, false)
      else
        let st1 := { st with current_values := new_values }
        let st2 := { st1 with bindings := applyBindings parseVal new_values st1.bindings }
        ({ st2 with last_error := {} }, true)

/-- `Params::FileCache::cache_duration`, in milliseconds. -/
def cache_duration : Int := 10

/-- The environment of one `Params::update` call: the `steady_clock` instant,
the file's current modify time, and the filesystem as seen by each read
attempt.  `ensure_file_exists` runs before the stat and the read; its effect
(writing `ensure_file_template` when the file is missing) is reflected in
these observations. -/
structure UpdateEnv where
  now : Int
  current_modify_time : Int
  fs : Nat → FsView

/-- `Params::update`.  Returns the final state, the boolean result, and the
states passed to each invocation of the registered `on_change` callback:
under the reentrancy guard the call is skipped; within the cache window with
an unchanged modify time it short-circuits; otherwise `load_file` runs under
the lock, the cache is refreshed, and, if values were updated and a callback
is registered, the callback is copied and invoked exactly once after the lock
is released, with `in_callback_` set for its duration.  The sequential
embedding renders the synchronous same-thread invocation as the callback event
being part of this function's own evaluation, carrying the state the callback
observes. -/
def Params.update {α : Type} (parseVal : String → Option α)
    (st : ParamsState α) (env : UpdateEnv) :
    ParamsState α × Bool × List (ParamsState α) :=
  if st.in_callback then (st, false, [])
  else if st.cache_file_exists ∧ env.now - st.cache_last_access < cache_duration ∧
      env.current_modify_time = st.cache_last_modify_time then
    (st, false, [])
  else
    let lr := Params.load_file parseVal st env.fs
    let st2 := { lr.1 with
      cache_last_modify_time := env.current_modify_time,
      cache_last_access := env.now,
      cache_file_exists := true }
    if lr.2 ∧ st.has_on_change_callback then
      (st2, true, [{ st2 with in_callback := true }])
    else
      (st2, lr.2, [])

/-- The filesystem view of a stable readable file holding `c`: it exists, its
reported size is the byte count of `c`, it opens and reads cleanly.  With
`c = ""` this is exactly an empty file (size zero). -/
def contentView (c : String) : FsView :=
  { file_exists := true, exists_error := false, size_error := false,
    file_size := c.utf8ByteSize, open_ok := true, read_exception := false,
    stream_ok := true, content := c }

/-- Key-by-key identity of two string maps, as compared by the loop of
`Params::load_file`: every pair of each is bound identically in the other
(same key set and same value for every key). -/
def sameMapB (m n : List (String × String)) : Bool :=
  m.all (fun kv => lookupAssoc n kv.1 == some kv.2) &&
  n.all (fun kv => lookupAssoc m kv.1 == some kv.2)

/-- The end-to-end scenario state: a key-value `Params` with a rational
binding named `speed` with default 1, bound while the variable held 0. -/
def speedParams : ParamsState Frac :=
  Params.bind { file_path := "speed.ini", format := FileFormat.KeyValue } "speed"
    (Frac.ofInt 0) (Frac.ofInt 1)

/-- First trigger of the scenario: the file holds `speed=2.5`. -/
def speedEnvSet : UpdateEnv :=
  { now := 0, current_modify_time := 1, fs := fun _ => contentView "speed=2.5" }

/-- Second trigger: the `speed` key was removed, leaving no key-value pairs
in the file (the file is empty). -/
def speedEnvRemoved : UpdateEnv :=
  { now := 100, current_modify_time := 2, fs := fun _ => contentView "" }

/-- Second-trigger variant: the key removed with a comment left behind (still
no key-value pairs). -/
def speedEnvComment : UpdateEnv :=
  { now := 100, current_modify_time := 2, fs := fun _ => contentView "# tuning\n" }

/-- The scenario state after the first trigger was applied. -/
def speedAfterSet : ParamsState Frac :=
  (Params.update parse_value_num speedParams speedEnvSet).1

/-- `speedParams` with an `on_change` callback registered. -/
def speedParamsCb : ParamsState Frac :=
  { speedParams with has_on_change_callback := true }

/-- The state after the first trigger, with a callback registered. -/
def speedParamsLoaded : ParamsState Frac :=
  { speedAfterSet with has_on_change_callback := true }

/-- Third trigger: a redundant save of the same bytes under a new modify
time. -/
def speedEnvSame : UpdateEnv :=
  { now := 200, current_modify_time := 3, fs := fun _ => contentView "speed=2.5" }

/-- The buffer-overflow scenario configuration: 4096-byte buffer, automatic
growth, 8192-byte maximum, overflow callback registered. -/
def overflowCfg : FileWatcherConfig :=
  { buffer_size := 4096, auto_grow_buffer := true, max_buffer_size := 8192,
    has_overflow_callback := true }

/-- A filesystem on which every read attempt observes an empty file. -/
def alwaysEmptyFs : Nat → FsView := fun _ => contentView ""

/-- The retry-timing scenario filesystem: attempts 0 to 2 observe an empty
file, attempt 3 reads its content. -/
def retryScenarioFs : Nat → FsView := fun i =>
  if i < 3 then contentView "" else contentView "attempt3 content"

/-- Looking up the key just inserted yields the inserted value. -/
theorem lookupAssoc_insertAssoc_self {β : Type} (m : List (String × β)) (k : String) (v : β) :
    lookupAssoc (insertAssoc m k v) k = some v := by
  induction m with
  | nil => simp [insertAssoc, lookupAssoc]
  | cons hd tl ih =>
    obtain ⟨a, b⟩ := hd
    by_cases h : a = k <;> simp [insertAssoc, lookupAssoc, h, ih]

/-- Claim C10: `Params::bind(name, variable, default_value)` immediately
overwrites the bound variable with the declared default at bind time, before
any `update()` has run; the value the variable held before the call
(`var_before`) is discarded and does not appear in the resulting binding. -/
theorem C10_bind_overwrites {α : Type} (st : ParamsState α) (name : String)
    (var_before default_value : α) :
    lookupAssoc (Params.bind st name var_before default_value).bindings name =
      some { target := default_value, default_value := default_value } := by
  simp [Params.bind, lookupAssoc_insertAssoc_self]

/-- Claim C8 as stated is false at a concrete input: with
`max_buffer_size = 100` (below the fixed minimum 4096), validation clamps
`buffer_size` up to the minimum and then down to the maximum, landing at 100,
below `min_buffer_size`. -/
theorem C8_counterexample :
    ¬ (FileWatcherConfig.min_buffer_size ≤
        (FileWatcherConfig.validate
          { buffer_size := 65536, auto_grow_buffer := true,
            max_buffer_size := 100, has_overflow_callback := false }).buffer_size ∧
      (FileWatcherConfig.validate
          { buffer_size := 65536, auto_grow_buffer := true,
            max_buffer_size := 100, has_overflow_callback := false }).buffer_size ≤
        (FileWatcherConfig.validate
          { buffer_size := 65536, auto_grow_buffer := true,
            max_buffer_size := 100, has_overflow_callback := false }).max_buffer_size) := by
  decide

/-- Claim C8, amended as the counterexample forces: for every configuration
whose `max_buffer_size` is at least the fixed `min_buffer_size` of 4096, the
configuration installed by `Params::set_watcher_config` (which stores the
argument and validates it in place) satisfies
`min_buffer_size ≤ buffer_size ≤ max_buffer_size`; when
`max_buffer_size < min_buffer_size` validation instead lands `buffer_size` at
`max_buffer_size`, below the minimum. -/
theorem C8_validate_invariant {α : Type} (st : ParamsState α) (c : FileWatcherConfig)
    (h : FileWatcherConfig.min_buffer_size ≤ c.max_buffer_size) :
    FileWatcherConfig.min_buffer_size ≤
        (Params.set_watcher_config st c).watcher_config.buffer_size ∧
      (Params.set_watcher_config st c).watcher_config.buffer_size ≤
        (Params.set_watcher_config st c).watcher_config.max_buffer_size := by
  simp only [Params.set_watcher_config, FileWatcherConfig.validate]
  split_ifs <;> simp_all

/-- Witness for C8: the amended invariant at the default configuration. -/
theorem C8_witness :
    FileWatcherConfig.min_buffer_size ≤
        (Params.set_watcher_config ({} : ParamsState Frac) {}).watcher_config.buffer_size ∧
      (Params.set_watcher_config ({} : ParamsState Frac) {}).watcher_config.buffer_size ≤
        (Params.set_watcher_config ({} : ParamsState Frac) {}).watcher_config.max_buffer_size :=
  C8_validate_invariant ({} : ParamsState Frac) {} (by decide)

/-- Claim C7: evaluating the overflow branch of the directory-change worker at
the claim's inputs.  The first overflow grows the buffer 4096 → 8192 and
invokes the callback exactly once with `(4096, 8192)`; a further overflow at
the maximum performs NO callback invocation at all, although the
`on_buffer_overflow` field's own documentation promises a call with
`new_size = 0` when the maximum is reached. -/
theorem C7_overflow_behavior :
    handle_buffer_overflow overflowCfg 4096 = (8192, [(4096, 8192)]) ∧
    handle_buffer_overflow overflowCfg 8192 = (8192, []) := by
  decide

/-- Claim C4 as stated is false at a concrete input: a waiter blocked with the
change flag clear that is woken by `stop()` (which stores the change flag
before notifying) returns true, not false. -/
theorem C4_counterexample :
    ¬ ((FileWatcher.wait_for_change { change_detected := false, running := true }
        FileWatcher.stop_flags).1 = false) := by
  decide

/-- Claim C4, amended as the counterexample forces: `wait_for_change` returns
true exactly when the change flag is set at entry or is set at the moment the
wait returns with its predicate satisfied (consuming the flag in either case);
a timeout without a change returns false, and a call on an already-stopped
watcher whose flag is clear returns false; but a `stop()` that arrives while
the caller is blocked sets the flag, so that waiter returns true. -/
theorem C4_amended_wait_semantics (entry final : WatcherFlags) :
    ((FileWatcher.wait_for_change entry final).1 =
      (entry.change_detected ||
        ((final.change_detected || !final.running) && final.change_detected))) ∧
    ((FileWatcher.wait_for_change entry final).1 = true →
      (FileWatcher.wait_for_change entry final).2.change_detected = false) ∧
    (entry.change_detected = false → final.change_detected = false →
      (FileWatcher.wait_for_change entry final).1 = false) ∧
    (entry.change_detected = false → final = FileWatcher.stop_flags →
      (FileWatcher.wait_for_change entry final).1 = true) := by
  obtain ⟨ec, er⟩ := entry
  obtain ⟨fc, fr⟩ := final
  cases ec <;> cases er <;> cases fc <;> cases fr <;>
    simp [FileWatcher.wait_for_change, FileWatcher.stop_flags]

/-- Witness for C4: the amended statement applied to a blocked waiter woken by
`stop()`, which returns true. -/
theorem C4_amended_witness :
    (FileWatcher.wait_for_change { change_detected := false, running := true }
      FileWatcher.stop_flags).1 = true :=
  (C4_amended_wait_semantics { change_detected := false, running := true }
    FileWatcher.stop_flags).2.2.2 rfl rfl

/-- Claim C9: the JSON template written by `Params::ensure_file_exists` for a
missing file contains line comments, which picojson rejects, so the library's
own JSON parser fails on the bytes the library itself created; moreover
`PicojsonParser::parse` returns false for any content whose flattened map is
empty, so even a genuinely minimal empty document is not "accepted ...
yielding an empty key map". -/
theorem C9_json_template_rejected :
    picojson_parse (ensure_file_template FileFormat.Json) = none ∧
    PicojsonParser.parse (ensure_file_template FileFormat.Json) = ([], false) ∧
    PicojsonParser.parse "\x7b\x7d" = ([], false) :=
  ⟨rfl, by decide, by decide⟩

/-- Claim C1 as stated is false on the code: after `speed=2.5` is ingested and
the key is then removed leaving no key-value pairs, the second `update()`
returns false (an empty file fails every read attempt as `FileEmpty`) and the
bound variable keeps 2.5 instead of resetting to the default 1. -/
theorem C1_counterexample :
    ¬ (((Params.update parse_value_num speedAfterSet speedEnvRemoved).2.1 = true) ∧
      lookupAssoc (Params.update parse_value_num speedAfterSet
          speedEnvRemoved).1.bindings "speed" =
        some { target := Frac.ofInt 1, default_value := Frac.ofInt 1 }) := by
  decide

/-- Claim C1, amended as the counterexample forces: writing `speed=2.5` and
calling `update()` returns true and sets the bound variable to 2.5; but after
the key is removed leaving no key-value pairs, `update()` returns false and
the variable keeps 2.5 — an empty file fails the read (`FileEmpty`) and a
comment-only file fails the parse (`ParseError`), and in neither case is any
binding reset.  The reset-to-default of an absent name only happens when a
nonempty map parses successfully. -/
theorem C1_amended_scenario :
    (Params.update parse_value_num speedParams speedEnvSet).2.1 = true ∧
    lookupAssoc speedAfterSet.bindings "speed" =
      some { target := ⟨25, 10⟩, default_value := Frac.ofInt 1 } ∧
    Frac.eqv ⟨25, 10⟩ ⟨5, 2⟩ = true ∧
    (Params.update parse_value_num speedAfterSet speedEnvRemoved).2.1 = false ∧
    lookupAssoc (Params.update parse_value_num speedAfterSet
        speedEnvRemoved).1.bindings "speed" =
      some { target := ⟨25, 10⟩, default_value := Frac.ofInt 1 } ∧
    (Params.update parse_value_num speedAfterSet
        speedEnvRemoved).1.last_error.type = ErrorType.FileEmpty ∧
    (Params.update parse_value_num speedAfterSet speedEnvComment).2.1 = false ∧
    lookupAssoc (Params.update parse_value_num speedAfterSet
        speedEnvComment).1.bindings "speed" =
      some { target := ⟨25, 10⟩, default_value := Frac.ofInt 1 } ∧
    (Params.update parse_value_num speedAfterSet
        speedEnvComment).1.last_error.type = ErrorType.ParseError := by
  decide

/-- Claim C2: whenever `Params::update` applies changed values (returns true)
while an `on_change` callback is registered, the callback is invoked exactly
once, as part of the same `update()` evaluation — synchronously, before
`update()` returns, on the calling thread — and the state it is handed is the
final state of the call: every bound variable already carries the new values
when the callback runs (update-then-notify, never the reverse). -/
theorem C2_update_then_notify {α : Type} (parseVal : String → Option α)
    (st : ParamsState α) (env : UpdateEnv)
    (hupd : (Params.update parseVal st env).2.1 = true)
    (hcb : st.has_on_change_callback = true) :
    (Params.update parseVal st env).2.2 =
      [{ (Params.update parseVal st env).1 with in_callback := true }] := by
  by_cases hic : st.in_callback = true
  · simp [Params.update, hic] at hupd
  · by_cases hcache : st.cache_file_exists ∧
        env.now - st.cache_last_access < cache_duration ∧
        env.current_modify_time = st.cache_last_modify_time
    · simp [Params.update, hic, hcache] at hupd
    · by_cases hlr : (Params.load_file parseVal st env.fs).2 = true
      · simp [Params.update, hic, hcache, hlr, hcb]
      · simp [Params.update, hic, hcache, hlr, hcb] at hupd

/-- Witness for C2: the scenario update with a callback registered invokes the
callback exactly once, handing it the final updated state. -/
theorem C2_witness :
    (Params.update parse_value_num speedParamsCb speedEnvSet).2.2 =
      [{ (Params.update parse_value_num speedParamsCb speedEnvSet).1 with
          in_callback := true }] :=
  C2_update_then_notify parse_value_num speedParamsCb speedEnvSet (by decide) (by decide)

/-- Claim C5 as stated is false: with `max_retries = 3`, `retry_delay = 5 ms`
and `backoff_multiplier = 1.5` (the default configuration) and failures on
attempts 0 to 2, the delays the backoff recurrence actually produces are 5, 7
and 10 ms — the delay is an integer count of milliseconds and each
multiplication is truncated back to `int` — so the exact total of the
per-attempt delays is 22 ms, NOT at least 23.75 ms (95/4), although the
attempt-3 content is indeed returned. -/
theorem C5_counterexample :
    (read_file_with_retry "params.txt" retryScenarioFs {}).1 = some "attempt3 content" ∧
    (read_file_with_retry "params.txt" retryScenarioFs {}).2.2 = 22 ∧
    Frac.le ⟨95, 4⟩
      (Frac.ofInt (read_file_with_retry "params.txt" retryScenarioFs {}).2.2) = false := by
  decide

/-- Claim C5, amended as the counterexample forces: under the claim's
configuration, with attempts 0 to 2 failing and attempt 3 succeeding, the
total time passed to the sleeps is exactly 5 + 7 + 10 = 22 ms, the exact sum
of the per-attempt delays produced by the integer-millisecond truncated
backoff recurrence; `error_out` is cleared and the content observed on
attempt 3 is returned. -/
theorem C5_amended_retry_timing (path c : String) (fs : Nat → FsView)
    (h0 : readFailed (read_attempt path (fs 0)) = true)
    (h1 : readFailed (read_attempt path (fs 1)) = true)
    (h2 : readFailed (read_attempt path (fs 2)) = true)
    (h3 : read_attempt path (fs 3) = Except.ok c) :
    read_file_with_retry path fs
        { max_retries := 3, retry_delay := 5, backoff_multiplier := ⟨3, 2⟩ } =
      (some c, {}, 22) := by
  obtain ⟨e0, he0⟩ : ∃ e, read_attempt path (fs 0) = Except.error e := by
    cases hx : read_attempt path (fs 0) with
    | error e => exact ⟨e, rfl⟩
    | ok v => rw [hx] at h0; simp [readFailed] at h0
  obtain ⟨e1, he1⟩ : ∃ e, read_attempt path (fs 1) = Except.error e := by
    cases hx : read_attempt path (fs 1) with
    | error e => exact ⟨e, rfl⟩
    | ok v => rw [hx] at h1; simp [readFailed] at h1
  obtain ⟨e2, he2⟩ : ∃ e, read_attempt path (fs 2) = Except.error e := by
    cases hx : read_attempt path (fs 2) with
    | error e => exact ⟨e, rfl⟩
    | ok v => rw [hx] at h2; simp [readFailed] at h2
  have hc1 : castTruncInt (Frac.mul (Frac.ofInt 5) ⟨3, 2⟩) = 7 := by decide
  have hc2 : castTruncInt (Frac.mul (Frac.ofInt 7) ⟨3, 2⟩) = 10 := by decide
  simp only [read_file_with_retry]
  simp [read_retry_go, he0, he1, he2, h3, hc1, hc2]

/-- Witness for C5 (amended): the scenario filesystem satisfies the
hypotheses and the conclusion evaluates as stated. -/
theorem C5_amended_witness :
    read_file_with_retry "params.txt" retryScenarioFs
        { max_retries := 3, retry_delay := 5, backoff_multiplier := ⟨3, 2⟩ } =
      (some "attempt3 content", {}, 22) :=
  C5_amended_retry_timing "params.txt" "attempt3 content" retryScenarioFs
    (by decide) (by decide) (by decide) rfl

/-- When every attempt of a window fails, the retry loop returns no content
and reports the error of the last attempt of the window. -/
theorem read_retry_go_all_fail (path : String) (fs : Nat → FsView) (mult : Frac) :
    ∀ (fuel attempt : Nat) (delay : Int) (le : ErrorInfo) (slept : Int),
      (∀ i, attempt ≤ i → i < attempt + (fuel + 1) →
        readFailed (read_attempt path (fs i)) = true) →
      (read_retry_go path fs mult (fuel + 1) attempt delay le slept).1 = none ∧
      (read_retry_go path fs mult (fuel + 1) attempt delay le slept).2.1 =
        readError (read_attempt path (fs (attempt + fuel))) := by
  intro fuel
  induction fuel with
  | zero =>
    intro attempt delay le slept h
    obtain ⟨e, he⟩ : ∃ e, read_attempt path (fs attempt) = Except.error e := by
      have hf := h attempt (Nat.le_refl _) (by omega)
      cases hx : read_attempt path (fs attempt) with
      | error e => exact ⟨e, rfl⟩
      | ok v => rw [hx] at hf; simp [readFailed] at hf
    simp [read_retry_go, he, readError]
  | succ n ih =>
    intro attempt delay le slept h
    obtain ⟨e, he⟩ : ∃ e, read_attempt path (fs attempt) = Except.error e := by
      have hf := h attempt (Nat.le_refl _) (by omega)
      cases hx : read_attempt path (fs attempt) with
      | error e => exact ⟨e, rfl⟩
      | ok v => rw [hx] at hf; simp [readFailed] at hf
    have h' : ∀ i, attempt + 1 ≤ i → i < (attempt + 1) + (n + 1) →
        readFailed (read_attempt path (fs i)) = true := by
      intro i hi hlt
      exact h i (by omega) (by omega)
    have hrec := ih (attempt + 1)
      (if 0 < attempt then castTruncInt (Frac.mul (Frac.ofInt delay) mult) else delay)
      e (if 0 < attempt then slept + delay else slept) h'
    have heq : attempt + 1 + n = attempt + (n + 1) := by omega
    rw [heq] at hrec
    constructor
    · simpa [read_retry_go, he] using hrec.1
    · simpa [read_retry_go, he] using hrec.2

/-- Claim C6: for every retry configuration and every failure sequence in
which no attempt succeeds, `read_file_with_retry` returns no content, and the
`ErrorInfo` it writes to `error_out` is the failure observed on the last
attempt (attempt `max_retries`), not the one observed first. -/
theorem C6_reports_last_failure (path : String) (cfg : FileReadRetryConfig)
    (fs : Nat → FsView)
    (hfail : ∀ i, i ≤ cfg.max_retries → readFailed (read_attempt path (fs i)) = true) :
    (read_file_with_retry path fs cfg).1 = none ∧
    (read_file_with_retry path fs cfg).2.1 =
      readError (read_attempt path (fs cfg.max_retries)) := by
  have h := read_retry_go_all_fail path fs cfg.backoff_multiplier cfg.max_retries 0
    cfg.retry_delay {} 0 (fun i h0 hlt => hfail i (by omega))
  simpa [read_file_with_retry] using h

/-- Witness for C6: with every attempt observing an empty file under the
default configuration, no content is returned and the reported error is the
last attempt's `FileEmpty`. -/
theorem C6_witness :
    (read_file_with_retry "params.txt" alwaysEmptyFs {}).1 = none ∧
    (read_file_with_retry "params.txt" alwaysEmptyFs {}).2.1 =
      readError (read_attempt "params.txt" (alwaysEmptyFs 3)) :=
  C6_reports_last_failure "params.txt" {} alwaysEmptyFs (fun i _ => rfl)

/-- A successful lookup implies membership. -/
theorem lookupAssoc_eq_some_mem {β : Type} {m : List (String × β)} {k : String} {v : β}
    (h : lookupAssoc m k = some v) : (k, v) ∈ m := by
  induction m with
  | nil => simp [lookupAssoc] at h
  | cons hd tl ih =>
    obtain ⟨a, b⟩ := hd
    by_cases hak : a = k <;> simp_all [lookupAssoc]

/-- A key is present exactly when its lookup succeeds. -/
theorem lookupAssoc_isSome_iff {β : Type} (m : List (String × β)) (k : String) :
    (lookupAssoc m k).isSome = true ↔ k ∈ assocKeys m := by
  induction m with
  | nil => simp [lookupAssoc, assocKeys]
  | cons hd tl ih =>
    obtain ⟨a, b⟩ := hd
    simp only [assocKeys, List.map_cons, List.mem_cons]
    by_cases hak : a = k
    · subst hak
      simp [lookupAssoc]
    · simp only [lookupAssoc, hak, if_false]
      rw [ih]
      simp only [assocKeys]
      constructor
      · intro h; exact Or.inr h
      · rintro (h | h)
        · exact absurd h.symm hak
        · exact h

/-- A key of an insertion is a key of the original map or the inserted one. -/
theorem mem_keys_insertAssoc {β : Type} {m : List (String × β)} {k x : String} {v : β}
    (h : x ∈ assocKeys (insertAssoc m k v)) : x ∈ assocKeys m ∨ x = k := by
  induction m with
  | nil =>
    simp only [insertAssoc, assocKeys, List.map_cons, List.map_nil,
      List.mem_singleton] at h
    exact Or.inr h
  | cons hd tl ih =>
    obtain ⟨a, b⟩ := hd
    by_cases hak : a = k
    · rw [show insertAssoc ((a, b) :: tl) k v = (k, v) :: tl from by
        simp [insertAssoc, hak]] at h
      simp only [assocKeys, List.map_cons, List.mem_cons] at h ⊢
      tauto
    · rw [show insertAssoc ((a, b) :: tl) k v = (a, b) :: insertAssoc tl k v from by
        simp [insertAssoc, hak]] at h
      simp only [assocKeys, List.map_cons, List.mem_cons] at h ⊢
      rcases h with h | h
      · exact Or.inl (Or.inl h)
      · rcases ih h with h2 | h2
        · exact Or.inl (Or.inr h2)
        · exact Or.inr h2

/-- Insertion preserves distinctness of keys. -/
theorem nodup_keys_insertAssoc {β : Type} {m : List (String × β)} (k : String) (v : β)
    (hn : (assocKeys m).Nodup) : (assocKeys (insertAssoc m k v)).Nodup := by
  induction m with
  | nil => simp [insertAssoc, assocKeys]
  | cons hd tl ih =>
    obtain ⟨a, b⟩ := hd
    simp only [assocKeys, List.map_cons, List.nodup_cons] at hn
    obtain ⟨ha, htl⟩ := hn
    by_cases hak : a = k
    · rw [show insertAssoc ((a, b) :: tl) k v = (k, v) :: tl from by
        simp [insertAssoc, hak]]
      simp only [assocKeys, List.map_cons, List.nodup_cons]
      exact ⟨hak ▸ ha, htl⟩
    · rw [show insertAssoc ((a, b) :: tl) k v = (a, b) :: insertAssoc tl k v from by
        simp [insertAssoc, hak]]
      simp only [assocKeys, List.map_cons, List.nodup_cons]
      refine ⟨fun hmem => ?_, ih htl⟩
      rcases mem_keys_insertAssoc hmem with h | h
      · exact ha h
      · exact hak h

/-- A fold whose step preserves key distinctness preserves it. -/
theorem nodup_keys_foldl {β γ : Type} (f : List (String × β) → γ → List (String × β))
    (hf : ∀ acc x, (assocKeys acc).Nodup → (assocKeys (f acc x)).Nodup) :
    ∀ (l : List γ) (acc : List (String × β)), (assocKeys acc).Nodup →
      (assocKeys (l.foldl f acc)).Nodup := by
  intro l
  induction l with
  | nil => intro acc h; simpa using h
  | cons x xs ih => intro acc h; exact ih _ (hf acc x h)

/-- One parsed line preserves key distinctness. -/
theorem nodup_keys_parseKVLine (y : Bool) (acc : List (String × String)) (line : String)
    (hn : (assocKeys acc).Nodup) : (assocKeys (parseKVLine y acc line)).Nodup := by
  simp only [parseKVLine]
  repeat' split
  all_goals first
    | exact hn
    | exact nodup_keys_insertAssoc _ _ hn

/-- The key-value parser yields a map with distinct keys. -/
theorem nodup_keys_kvparse (content : String) (y : Bool) :
    (assocKeys (SimpleKeyValueParser.parse content y).1).Nodup := by
  unfold SimpleKeyValueParser.parse
  exact nodup_keys_foldl _ (fun acc x h => nodup_keys_parseKVLine y acc x h) _ _
    (by simp [assocKeys])

/-- The JSON parser yields a map with distinct keys. -/
theorem nodup_keys_picoparse (content : String) :
    (assocKeys (PicojsonParser.parse content).1).Nodup := by
  unfold PicojsonParser.parse
  split
  · refine nodup_keys_foldl _ ?_ _ _ (by simp [assocKeys])
    intro acc kv h
    obtain ⟨k, v⟩ := kv
    cases v <;> first
      | exact h
      | exact nodup_keys_insertAssoc _ _ h
  · simp [assocKeys]

/-- Every format's parser yields a map with distinct keys. -/
theorem nodup_keys_parse_by_format (fmt : FileFormat) (content : String) :
    (assocKeys (parse_by_format fmt content).1).Nodup := by
  cases fmt <;>
    simp only [parse_by_format] <;>
    first
      | exact nodup_keys_picoparse content
      | exact nodup_keys_kvparse content true
      | exact nodup_keys_kvparse content false

/-- Both parsers report success exactly when the map is nonempty. -/
theorem parse_by_format_snd (fmt : FileFormat) (content : String) :
    (parse_by_format fmt content).2 = !(parse_by_format fmt content).1.isEmpty := by
  cases fmt <;> simp only [parse_by_format, SimpleKeyValueParser.parse]
  case Json =>
    unfold PicojsonParser.parse
    split <;> simp

/-- Two maps with distinct keys and the same key set have the same length. -/
theorem length_eq_of_nodup_keys {β : Type} {m n : List (String × β)}
    (hm : (assocKeys m).Nodup) (hn : (assocKeys n).Nodup)
    (h : ∀ k, k ∈ assocKeys m ↔ k ∈ assocKeys n) : m.length = n.length := by
  have hp : (assocKeys m).Perm (assocKeys n) := (List.perm_ext_iff_of_nodup hm hn).2 h
  have hl := hp.length_eq
  simpa [assocKeys] using hl

/-- The first half of `sameMapB`: pairs of the left map are bound in the
right map. -/
theorem sameMapB_lookup_left {m n : List (String × String)} (hs : sameMapB m n = true)
    {k v : String} (hkv : (k, v) ∈ m) : lookupAssoc n k = some v := by
  simp only [sameMapB, Bool.and_eq_true, List.all_eq_true, beq_iff_eq] at hs
  exact hs.1 (k, v) hkv

/-- The second half of `sameMapB`: pairs of the right map are bound in the
left map. -/
theorem sameMapB_lookup_right {m n : List (String × String)} (hs : sameMapB m n = true)
    {k v : String} (hkv : (k, v) ∈ n) : lookupAssoc m k = some v := by
  simp only [sameMapB, Bool.and_eq_true, List.all_eq_true, beq_iff_eq] at hs
  exact hs.2 (k, v) hkv

/-- Maps identified by `sameMapB` have the same key set. -/
theorem sameMapB_keys_iff {m n : List (String × String)} (hs : sameMapB m n = true)
    (k : String) : k ∈ assocKeys m ↔ k ∈ assocKeys n := by
  constructor
  · intro hk
    obtain ⟨v, hv⟩ := Option.isSome_iff_exists.1 ((lookupAssoc_isSome_iff m k).2 hk)
    have h2 := sameMapB_lookup_left hs (lookupAssoc_eq_some_mem hv)
    exact (lookupAssoc_isSome_iff n k).1 (by simp [h2])
  · intro hk
    obtain ⟨v, hv⟩ := Option.isSome_iff_exists.1 ((lookupAssoc_isSome_iff n k).2 hk)
    have h2 := sameMapB_lookup_right hs (lookupAssoc_eq_some_mem hv)
    exact (lookupAssoc_isSome_iff m k).1 (by simp [h2])

/-- Claim C3: when the file's parsed key-value map is identical to the
previously ingested map — same key set and same value for every key — then
`update()` returns false even though the modify time changed, and both the
bound variables and the stored map are left exactly as they were (a redundant
save is idempotent).  `hnodup` is the maintained invariant that the stored map
has distinct keys (it is empty initially and otherwise parser output). -/
theorem C3_identical_map_no_update {α : Type} (parseVal : String → Option α)
    (st : ParamsState α) (env : UpdateEnv) (content : String)
    (hnodup : (assocKeys st.current_values).Nodup)
    (hread : (read_file_with_retry st.file_path env.fs st.read_retry_config).1 = some content)
    (hsame : sameMapB (parse_by_format st.format content).1 st.current_values = true)
    (hmt : env.current_modify_time ≠ st.cache_last_modify_time) :
    (Params.update parseVal st env).2.1 = false ∧
    (Params.update parseVal st env).1.bindings = st.bindings ∧
    (Params.update parseVal st env).1.current_values = st.current_values := by
  have hload : (Params.load_file parseVal st env.fs).2 = false ∧
      (Params.load_file parseVal st env.fs).1.bindings = st.bindings ∧
      (Params.load_file parseVal st env.fs).1.current_values = st.current_values := by
    have hsnd := parse_by_format_snd st.format content
    cases hme : (parse_by_format st.format content).1 with
    | nil =>
      rw [hme] at hsnd
      have hcur : st.current_values = [] := by
        cases hc : st.current_values with
        | nil => rfl
        | cons c0 crest =>
          exfalso
          have hmem : (c0.1, c0.2) ∈ st.current_values := by rw [hc]; simp
          have := sameMapB_lookup_right hsame hmem
          rw [hme] at this
          simp [lookupAssoc] at this
      simp [Params.load_file, hread, hme, hsnd, hcur]
    | cons kv0 mrest =>
      rw [hme] at hsnd
      have hany : ((kv0 :: mrest).any
          (fun kv => !(lookupAssoc st.current_values kv.1 == some kv.2))) = false := by
        rw [List.any_eq_false]
        intro kv hkv
        have := sameMapB_lookup_left hsame (by rw [hme]; exact hkv)
        simp [this]
      have hlen : (kv0 :: mrest).length = st.current_values.length := by
        refine length_eq_of_nodup_keys ?_ hnodup ?_
        · have := nodup_keys_parse_by_format st.format content
          rwa [hme] at this
        · intro k
          have := sameMapB_keys_iff hsame k
          rwa [hme] at this
      simp [Params.load_file, hread, hme, hsnd, hany, hlen]
  by_cases hic : st.in_callback = true
  · simp [Params.update, hic]
  · by_cases hcache : st.cache_file_exists ∧
        env.now - st.cache_last_access < cache_duration ∧
        env.current_modify_time = st.cache_last_modify_time
    · exact absurd hcache.2.2 hmt
    · have h1 := hload.1
      have h2 := hload.2.1
      have h3 := hload.2.2
      simp [Params.update, hic, hcache, h1, h2, h3]

/-- Witness for C3: a redundant save of `speed=2.5` under a fresh modify time
returns false and leaves the binding and the stored map untouched. -/
theorem C3_witness :
    (Params.update parse_value_num speedParamsLoaded speedEnvSame).2.1 = false ∧
    (Params.update parse_value_num speedParamsLoaded speedEnvSame).1.bindings =
      speedParamsLoaded.bindings ∧
    (Params.update parse_value_num speedParamsLoaded speedEnvSame).1.current_values =
      speedParamsLoaded.current_values :=
  C3_identical_map_no_update parse_value_num speedParamsLoaded speedEnvSame "speed=2.5"
    (by decide) (by decide) (by decide) (by decide)

end LiveTuner
